import Mathlib

/-!
Shallow embedding of the AI Rummy Games rule engine
(`ai_rummy_games/models.py`, `validator.py`, `scorer.py`).

Cards, players, melds and the game state are translated as Lean structures;
the Python methods become pure functions, with mutation modelled by returning
the updated value and Python exceptions modelled by `Except`.
-/

namespace Rummy

/-- `Card` from `models.py`: suit, rank and joker status; Python dataclass
equality is value equality, mirrored by `DecidableEq`. -/
structure Card where
  suit : String
  rank : String
  is_joker : Bool := false
deriving DecidableEq, Repr

/-- `Deck.SUITS` from `models.py`. -/
def SUITS : List String := ["Hearts", "Diamonds", "Clubs", "Spades"]

/-- `Deck.RANKS` from `models.py`. -/
def RANKS : List String := ["A", "2", "3", "4", "5", "6", "7", "8", "9", "10", "J", "Q", "K"]

/-- `Deck` from `models.py`: a draw pile and a discard pile. -/
structure Deck where
  draw_pile : List Card
  discard_pile : List Card
deriving DecidableEq, Repr

/-- `Deck._build_deck`: two standard 52-card decks followed by 4 jokers. -/
def buildDeck : List Card :=
  ((List.replicate 2 ()).flatMap fun _ =>
    SUITS.flatMap fun suit => RANKS.map fun rank => Card.mk suit rank false)
  ++ List.replicate 4 (Card.mk "" "" true)

/-- `Deck.__init__`: fresh deck with the 108 built cards and empty discard pile. -/
def freshDeck : Deck := ⟨buildDeck, []⟩

/-- `Deck.draw`: pops the top (Python list end) of the draw pile; `none` when empty. -/
def Deck.draw (d : Deck) : Option Card × Deck :=
  match d.draw_pile.getLast? with
  | none => (none, d)
  | some c => (some c, { d with draw_pile := d.draw_pile.dropLast })

/-- `Deck.discard`: pushes a card onto the discard pile. -/
def Deck.discard (d : Deck) (c : Card) : Deck :=
  { d with discard_pile := d.discard_pile ++ [c] }

/-- `Deck.cards_remaining`. -/
def Deck.cards_remaining (d : Deck) : Nat := d.draw_pile.length

/-- `Deck.discard_pile_size`. -/
def Deck.discard_pile_size (d : Deck) : Nat := d.discard_pile.length

/-- A deck operation: a `draw()` call or a `discard(card)` call. -/
inductive DeckOp where
  | draw : DeckOp
  | discard : Card → DeckOp
deriving DecidableEq, Repr

/-- Apply one deck operation (a failed draw on an empty pile leaves the deck as is). -/
def applyOp (d : Deck) : DeckOp → Deck
  | .draw => (d.draw).2
  | .discard c => d.discard c

/-- Apply a sequence of deck operations in order. -/
def applyOps (d : Deck) : List DeckOp → Deck
  | [] => d
  | op :: ops => applyOps (applyOp d op) ops

/-- Number of successful draws (draws on a non-empty pile) along an operation sequence. -/
def successfulDraws (d : Deck) : List DeckOp → Nat
  | [] => 0
  | .draw :: ops =>
      (if d.draw_pile.isEmpty then 0 else 1) + successfulDraws (applyOp d .draw) ops
  | .discard c :: ops => successfulDraws (applyOp d (.discard c)) ops

/-- Number of discard operations in a sequence. -/
def numDiscards : List DeckOp → Nat
  | [] => 0
  | .draw :: ops => numDiscards ops
  | .discard _ :: ops => 1 + numDiscards ops

/-- `Player` from `models.py`: name, hand, declaration flag and accumulated score. -/
structure Player where
  name : String
  hand : List Card := []
  has_declared : Bool := false
  score : Nat := 0
deriving DecidableEq, Repr

/-- `Meld` from `models.py`: a list of cards tagged `"sequence"` or `"set"`. -/
structure Meld where
  cards : List Card := []
  type : String := "set"
deriving DecidableEq, Repr

namespace Validator

/-- `Validator.CARD_POINTS` with the Python `dict.get(rank, 0)` default. -/
def CARD_POINTS (rank : String) : Nat :=
  if rank = "A" then 10
  else if rank = "2" then 2
  else if rank = "3" then 3
  else if rank = "4" then 4
  else if rank = "5" then 5
  else if rank = "6" then 6
  else if rank = "7" then 7
  else if rank = "8" then 8
  else if rank = "9" then 9
  else if rank = "10" then 10
  else if rank = "J" then 10
  else if rank = "Q" then 10
  else if rank = "K" then 10
  else 0

/-- `Validator.JOKER_POINTS`. -/
def JOKER_POINTS : Nat := 20

/-- `Validator.MINIMUM_DECLARATION_POINTS`. -/
def MINIMUM_DECLARATION_POINTS : Nat := 48

/-- The `rank_to_value` table of `Validator._get_rank_values` (and
`Meld._is_valid_sequence`), totalised with 0 for ranks outside the table. -/
def rank_to_value (rank : String) : Nat :=
  if rank = "A" then 1
  else if rank = "2" then 2
  else if rank = "3" then 3
  else if rank = "4" then 4
  else if rank = "5" then 5
  else if rank = "6" then 6
  else if rank = "7" then 7
  else if rank = "8" then 8
  else if rank = "9" then 9
  else if rank = "10" then 10
  else if rank = "J" then 11
  else if rank = "Q" then 12
  else if rank = "K" then 13
  else 0

/-- The inner loop of `Validator._cards_available_in_hand` /
`Player.remove_card`: remove each card by value from the working hand,
`none` when some card is absent (Python `ValueError`). -/
def removeAll (hand : List Card) : List Card → Option (List Card)
  | [] => some hand
  | c :: cs => if c ∈ hand then removeAll (hand.erase c) cs else none

/-- `Validator._cards_available_in_hand`: every meld card is removable from a
copy of the hand. -/
def cards_available_in_hand (player_hand : List Card) (melds : List Meld) : Bool :=
  (removeAll player_hand (melds.flatMap Meld.cards)).isSome

/-- `Validator._calculate_single_meld_points`. -/
def calculate_single_meld_points (meld : Meld) : Nat :=
  meld.cards.foldl
    (fun points card =>
      if card.is_joker then points + JOKER_POINTS else points + CARD_POINTS card.rank) 0

/-- `Validator._calculate_meld_points`. -/
def calculate_meld_points (melds : List Meld) : Nat :=
  melds.foldl (fun total meld => total + calculate_single_meld_points meld) 0

/-- The duplicate-filtering loop of `Validator._can_form_sequence_with_jokers`:
builds `unique_ranks`, failing (`none`, the Python early `return False`) on a
repeated rank. -/
def buildUnique (acc : List Nat) : List Nat → Option (List Nat)
  | [] => some acc
  | r :: rest => if r ∈ acc then none else buildUnique (acc ++ [r]) rest

/-- The gap sum of `Validator._can_form_sequence_with_jokers`:
`Σ (v[i] − v[i−1] − 1)` over consecutive entries (Python int arithmetic). -/
def gapsNeeded : List Nat → Int
  | [] => 0
  | [_] => 0
  | a :: b :: rest => ((b : Int) - (a : Int) - 1) + gapsNeeded (b :: rest)

/-- `Validator._can_form_sequence_with_jokers`. -/
def can_form_sequence_with_jokers (sorted_ranks : List Nat) (joker_count : Nat) : Bool :=
  if sorted_ranks.isEmpty then false
  else
    match buildUnique [] sorted_ranks with
    | none => false
    | some unique_ranks => gapsNeeded unique_ranks ≤ (joker_count : Int)

/-- `Validator._get_rank_values`. -/
def get_rank_values (cards : List Card) : List Nat :=
  cards.map fun card => rank_to_value card.rank

/-- `Validator._is_valid_sequence`: ≥3 cards, uniform suit among non-jokers,
the special-cased `{A,K,Q}` high sequence, else sorted values with joker
gap-filling. `sorted` on rank strings and on values is Python's ascending sort,
modelled by `List.insertionSort`. -/
def is_valid_sequence (cards : List Card) : Bool :=
  if cards.length < 3 then false
  else
    let regular_cards := cards.filter fun card => !card.is_joker
    let joker_count := cards.length - regular_cards.length
    match regular_cards with
    | [] => false
    | first :: _ =>
      if regular_cards.any (fun card => card.suit ≠ first.suit) then false
      else if (regular_cards.map Card.rank).insertionSort (· ≤ ·) = ["A", "K", "Q"] then true
      else
        can_form_sequence_with_jokers
          ((get_rank_values regular_cards).insertionSort (· ≤ ·)) joker_count

/-- `Validator._is_valid_set`: the accumulating loop over the cards, returning
`none` on a rank mismatch or duplicate suit (Python early `return False`),
else the final `(base_rank, suits_used, joker_count)`. -/
def setLoop (base_rank : Option String) (suits_used : List String) (joker_count : Nat) :
    List Card → Option (Option String × List String × Nat)
  | [] => some (base_rank, suits_used, joker_count)
  | card :: rest =>
    if card.is_joker then setLoop base_rank suits_used (joker_count + 1) rest
    else
      match base_rank with
      | none =>
        if card.suit ∈ suits_used then none
        else setLoop (some card.rank) (suits_used ++ [card.suit]) joker_count rest
      | some r =>
        if card.rank ≠ r then none
        else if card.suit ∈ suits_used then none
        else setLoop base_rank (suits_used ++ [card.suit]) joker_count rest

/-- `Validator._is_valid_set`: ≥3 cards, loop over cards, then
`joker_count ≤ 4 − |suits_used|` in Python int arithmetic. -/
def is_valid_set (cards : List Card) : Bool :=
  if cards.length < 3 then false
  else
    match setLoop none [] 0 cards with
    | none => false
    | some (_, suits_used, joker_count) =>
      (joker_count : Int) ≤ 4 - (suits_used.length : Int)

/-- `Validator._validate_meld`: dispatch on the meld's string type tag. -/
def validate_meld (meld : Meld) : Bool :=
  if meld.type = "set" then is_valid_set meld.cards
  else if meld.type = "sequence" then is_valid_sequence meld.cards
  else false

/-- `Validator.validate_new_meld`. -/
def validate_new_meld (cards : List Card) (meld_type : String) : Bool :=
  validate_meld { cards := cards, type := meld_type }

/-- `Validator._is_pure_sequence`: a `"sequence"` meld without jokers that
passes the sequence check. -/
def is_pure_sequence (meld : Meld) : Bool :=
  if meld.type ≠ "sequence" then false
  else if meld.cards.any Card.is_joker then false
  else is_valid_sequence meld.cards

/-- `Validator._has_pure_sequence`. -/
def has_pure_sequence (melds : List Meld) : Bool :=
  melds.any is_pure_sequence

/-- `Validator.validate_initial_declaration`: availability, ≥48 points, a pure
sequence, and structural validity of every meld. -/
def validate_initial_declaration (player_hand : List Card) (melds : List Meld) : Bool :=
  if !cards_available_in_hand player_hand melds then false
  else if calculate_meld_points melds < MINIMUM_DECLARATION_POINTS then false
  else if !has_pure_sequence melds then false
  else melds.all validate_meld

end Validator

/-- `GameState` from `models.py`. The `scores` dict is an insertion-ordered
association list. -/
structure GameState where
  players : List Player := []
  draw_pile : List Card := []
  discard_pile : List Card := []
  melds_on_table : List Meld := []
  current_round : Nat := 1
  current_player_index : Nat := 0
  is_game_closed : Bool := false
  closer_name : Option String := none
  scores : List (String × Nat) := []
deriving DecidableEq, Repr

/-- The player-lookup loop (`for p in self.players: if p.name == player_name`):
returns the first matching player together with the players before and after it. -/
def findPlayer : List Player → String → Option (List Player × Player × List Player)
  | [], _ => none
  | p :: ps, player_name =>
    if p.name = player_name then some ([], p, ps)
    else
      match findPlayer ps player_name with
      | none => none
      | some (pre, q, suf) => some (p :: pre, q, suf)

/-- Python `dict.__setitem__`: overwrite an existing key in place, else append. -/
def dictInsert (d : List (String × Nat)) (k : String) (v : Nat) : List (String × Nat) :=
  if d.any fun kv => kv.1 = k then
    d.map fun kv => if kv.1 = k then (k, v) else kv
  else d ++ [(k, v)]

/-- Python `dict.get(k, default)`. -/
def dictGet (d : List (String × Nat)) (k : String) (dflt : Nat) : Nat :=
  match d.find? fun kv => kv.1 = k with
  | none => dflt
  | some kv => kv.2

namespace Scorer

/-- `Scorer.CARD_POINTS` (duplicated from the validator in the source). -/
def CARD_POINTS (rank : String) : Nat :=
  if rank = "A" then 10
  else if rank = "2" then 2
  else if rank = "3" then 3
  else if rank = "4" then 4
  else if rank = "5" then 5
  else if rank = "6" then 6
  else if rank = "7" then 7
  else if rank = "8" then 8
  else if rank = "9" then 9
  else if rank = "10" then 10
  else if rank = "J" then 10
  else if rank = "Q" then 10
  else if rank = "K" then 10
  else 0

/-- `Scorer.UNDECLARED_PENALTY`. -/
def UNDECLARED_PENALTY : Nat := 100

/-- `Scorer.JOKER_PENALTY`. -/
def JOKER_PENALTY : Nat := 50

/-- `Scorer.JOKER_POINTS`. -/
def JOKER_POINTS : Nat := 10

/-- `Scorer._calculate_hand_points`. -/
def calculate_hand_points (cards : List Card) : Nat :=
  cards.foldl
    (fun total card =>
      if card.is_joker then total + JOKER_POINTS else total + CARD_POINTS card.rank) 0

/-- The body of the player loop in `Scorer.calculate_scores`: skip the closer,
give an undeclared player 100 + 50·jokers, and a declared player the points of
their remaining hand. -/
def scoreStep (closer_name : String) (scores : List (String × Nat)) (player : Player) :
    List (String × Nat) :=
  if player.name = closer_name then scores
  else if !player.has_declared then
    dictInsert scores player.name
      (UNDECLARED_PENALTY + JOKER_PENALTY * (player.hand.filter Card.is_joker).length)
  else dictInsert scores player.name (calculate_hand_points player.hand)

/-- `Scorer.calculate_scores`: `scores = {closer: 0}`, then the player loop. -/
def calculate_scores (game_state : GameState) (closer_name : String) : List (String × Nat) :=
  game_state.players.foldl (scoreStep closer_name) (dictInsert [] closer_name 0)

end Scorer

/-- `GameState.next_turn`. -/
def GameState.next_turn (gs : GameState) : GameState :=
  if gs.players.isEmpty then gs
  else
    let idx := gs.current_player_index + 1
    if idx ≥ gs.players.length then
      { gs with current_player_index := 0, current_round := gs.current_round + 1 }
    else
      { gs with current_player_index := idx }

/-- `GameState.add_meld_to_table`. -/
def GameState.add_meld_to_table (gs : GameState) (meld : Meld) : GameState :=
  { gs with melds_on_table := gs.melds_on_table ++ [meld] }

/-- `GameState.validate_and_process_declaration`: look up the player
(`ValueError` when absent), reject if already declared or validation fails,
else mark declared, remove every meld card from the hand (`remove_card`
raises when a card is absent) and append the melds to the table. -/
def GameState.validate_and_process_declaration (gs : GameState) (player_name : String)
    (melds : List Meld) : Except String (Bool × GameState) :=
  match findPlayer gs.players player_name with
  | none => .error ("Player " ++ player_name ++ " not found")
  | some (pre, player, suf) =>
    if player.has_declared then .ok (false, gs)
    else if !Validator.validate_initial_declaration player.hand melds then .ok (false, gs)
    else
      match Validator.removeAll player.hand (melds.flatMap Meld.cards) with
      | none => .error "Card not found in hand"
      | some newHand =>
        .ok (true,
          { gs with
              players := pre ++ { player with has_declared := true, hand := newHand } :: suf,
              melds_on_table := gs.melds_on_table ++ melds })

/-- `GameState.close_game`: look up the player (`ValueError` when absent),
reject if the hand is non-empty, else close the game, record the closer,
compute the scores and add them onto the players. -/
def GameState.close_game (gs : GameState) (player_name : String) :
    Except String (Bool × GameState) :=
  match findPlayer gs.players player_name with
  | none => .error ("Player " ++ player_name ++ " not found")
  | some (_, player, _) =>
    if player.hand.length > 0 then .ok (false, gs)
    else
      let gs1 := { gs with is_game_closed := true, closer_name := some player_name }
      let scores := Scorer.calculate_scores gs1 player_name
      .ok (true,
        { gs1 with
            scores := scores,
            players := gs1.players.map fun p =>
              { p with score := p.score + dictGet scores p.name 0 } })

/-- Whether an `Except` result is an error (a raised Python exception). -/
def exceptIsError {α : Type} : Except String α → Bool
  | .error _ => true
  | .ok _ => false

/-- Spec-side predicate for C5, following the spec's words for `is_valid_set`:
at least 3 cards, all non-joker cards share one rank, the non-joker suits are
pairwise distinct, and the joker count is at most 4 minus the number of
distinct non-joker suits (stated additively: jokers + distinct suits ≤ 4;
with the suits duplicate-free, the suit-list length is the distinct count). -/
def validSetSpec (cards : List Card) : Prop :=
  3 ≤ cards.length ∧
  (∀ c ∈ cards.filter (fun c => !c.is_joker), ∀ d ∈ cards.filter (fun c => !c.is_joker),
    c.rank = d.rank) ∧
  ((cards.filter (fun c => !c.is_joker)).map Card.suit).Nodup ∧
  (cards.filter Card.is_joker).length
    + ((cards.filter (fun c => !c.is_joker)).map Card.suit).length ≤ 4

/-- A printed joker, as built by `Deck._build_deck`. -/
def jokerCard : Card := ⟨"", "", true⟩

/-- The closure scenario of spec §8: P1 closes with an empty hand, P2 never
declared and holds one joker, P3 declared and holds Q♦ and J♦. -/
def closureScenario : GameState :=
  { players :=
      [⟨"P1", [], true, 0⟩,
       ⟨"P2", [jokerCard], false, 0⟩,
       ⟨"P3", [⟨"Diamonds", "Q", false⟩, ⟨"Diamonds", "J", false⟩], true, 0⟩] }

/-- A game with two players on round 1, used to instantiate the turn claim. -/
def gsTwoPlayers : GameState :=
  { players := [⟨"a", [], false, 0⟩, ⟨"b", [], false, 0⟩] }

/-- A closed one-player game, used to instantiate the closure claims. -/
def gsClosedOne : GameState :=
  { players := [⟨"solo", [], false, 0⟩], is_game_closed := true }

/-- A game with no players at all. -/
def emptyGame : GameState := {}

/-- The hand of the accepted §8 declaration: Q♥ K♥ A♥ 10♠ 10♣ 10♦. -/
def declHand : List Card :=
  [⟨"Hearts", "Q", false⟩, ⟨"Hearts", "K", false⟩, ⟨"Hearts", "A", false⟩,
   ⟨"Spades", "10", false⟩, ⟨"Clubs", "10", false⟩, ⟨"Diamonds", "10", false⟩]

/-- The melds of the accepted §8 declaration: the pure sequence Q♥ K♥ A♥
(30 points) and the set 10♠ 10♣ 10♦ (30 points). -/
def declMelds : List Meld :=
  [⟨[⟨"Hearts", "Q", false⟩, ⟨"Hearts", "K", false⟩, ⟨"Hearts", "A", false⟩], "sequence"⟩,
   ⟨[⟨"Spades", "10", false⟩, ⟨"Clubs", "10", false⟩, ⟨"Diamonds", "10", false⟩], "set"⟩]

/-- A small game state with non-default values in every field, used to
instantiate the serialization round-trip claim. -/
def gsSnapshot : GameState :=
  { players := [⟨"s", [⟨"Hearts", "A", false⟩], true, 7⟩],
    draw_pile := [jokerCard],
    discard_pile := [⟨"Clubs", "3", false⟩],
    melds_on_table := [⟨[⟨"Hearts", "2", false⟩], "set"⟩],
    current_round := 3,
    current_player_index := 0,
    is_game_closed := true,
    closer_name := some "s",
    scores := [("s", 5)] }

/-! Serialization (`to_dict` / `from_dict`): the nested dictionary snapshot is
modelled by record types mirroring the dictionary fields. -/

/-- The dictionary produced by `Card.to_dict`. -/
structure CardDict where
  suit : String
  rank : String
  is_joker : Bool
deriving DecidableEq, Repr

/-- The dictionary produced by `Player.to_dict` (note: no `score` field). -/
structure PlayerDict where
  name : String
  hand : List CardDict
  has_declared : Bool
deriving DecidableEq, Repr

/-- The dictionary produced by `Meld.to_dict`. -/
structure MeldDict where
  type : String
  cards : List CardDict
deriving DecidableEq, Repr

/-- The dictionary produced by `GameState.to_dict` (note: no `closer_name`
and no `scores` field). -/
structure GameStateDict where
  players : List PlayerDict
  draw_pile : List CardDict
  discard_pile : List CardDict
  melds_on_table : List MeldDict
  current_round : Nat
  current_player_index : Nat
  is_game_closed : Bool
deriving DecidableEq, Repr

/-- `Card.to_dict`. -/
def Card.to_dict (c : Card) : CardDict := ⟨c.suit, c.rank, c.is_joker⟩

/-- `Card.from_dict`. -/
def Card.from_dict (d : CardDict) : Card := ⟨d.suit, d.rank, d.is_joker⟩

/-- `Player.to_dict`: serializes name, hand and flag, dropping `score`. -/
def Player.to_dict (p : Player) : PlayerDict :=
  ⟨p.name, p.hand.map Card.to_dict, p.has_declared⟩

/-- `Player.from_dict`: rebuilds the player; `score` takes the default 0. -/
def Player.from_dict (d : PlayerDict) : Player :=
  { name := d.name, has_declared := d.has_declared, hand := d.hand.map Card.from_dict }

/-- `Meld.to_dict`. -/
def Meld.to_dict (m : Meld) : MeldDict := ⟨m.type, m.cards.map Card.to_dict⟩

/-- `Meld.from_dict`. -/
def Meld.from_dict (d : MeldDict) : Meld :=
  { type := d.type, cards := d.cards.map Card.from_dict }

/-- `GameState.to_dict`: serializes players, piles, table, round, index and
the closed flag — not `closer_name` and not `scores`. -/
def GameState.to_dict (gs : GameState) : GameStateDict :=
  { players := gs.players.map Player.to_dict
    draw_pile := gs.draw_pile.map Card.to_dict
    discard_pile := gs.discard_pile.map Card.to_dict
    melds_on_table := gs.melds_on_table.map Meld.to_dict
    current_round := gs.current_round
    current_player_index := gs.current_player_index
    is_game_closed := gs.is_game_closed }

/-- `GameState.from_dict`: rebuilds players, piles, table, round and index;
`is_game_closed`, `closer_name` and `scores` take their defaults. -/
def GameState.from_dict (d : GameStateDict) : GameState :=
  { current_round := d.current_round
    current_player_index := d.current_player_index
    players := d.players.map Player.from_dict
    draw_pile := d.draw_pile.map Card.from_dict
    discard_pile := d.discard_pile.map Card.from_dict
    melds_on_table := d.melds_on_table.map Meld.from_dict }

/-! ## Helper lemmas -/

/-- The player lookup fails exactly when no player carries the name. -/
theorem findPlayer_none_iff (ps : List Player) (name : String) :
    findPlayer ps name = none ↔ ∀ p ∈ ps, p.name ≠ name := by
  induction ps with
  | nil => simp [findPlayer]
  | cons q qs ih =>
    by_cases hq : q.name = name
    · simp only [findPlayer, if_pos hq]
      constructor
      · intro h; simp at h
      · intro h; exact absurd hq (h q (List.mem_cons_self q qs))
    · cases hf : findPlayer qs name with
      | none =>
        simp only [findPlayer, if_neg hq, hf]
        constructor
        · intro _ p hp
          rcases List.mem_cons.mp hp with h | h
          · rw [h]; exact hq
          · exact (ih.mp hf) p h
        · intro _; trivial
      | some t =>
        obtain ⟨pre, pl, suf⟩ := t
        simp only [findPlayer, if_neg hq, hf]
        constructor
        · intro h; simp at h
        · intro h
          have hnone : findPlayer qs name = none :=
            ih.mpr fun p hp => h p (List.mem_cons_of_mem _ hp)
          rw [hf] at hnone; simp at hnone

/-- A successful player lookup splits the list around the first player
carrying the name. -/
theorem findPlayer_some (ps : List Player) (name : String) :
    ∀ pre p suf, findPlayer ps name = some (pre, p, suf) →
      ps = pre ++ p :: suf ∧ p.name = name := by
  induction ps with
  | nil => intro pre p suf h; simp [findPlayer] at h
  | cons q qs ih =>
    intro pre p suf h
    by_cases hq : q.name = name
    · rw [findPlayer, if_pos hq] at h
      injection h with h'
      injection h' with ha hbc
      injection hbc with hb hc
      subst ha; subst hb; subst hc
      exact ⟨by simp, hq⟩
    · rw [findPlayer, if_neg hq] at h
      cases hf : findPlayer qs name with
      | none => rw [hf] at h; simp at h
      | some t =>
        obtain ⟨pre', p', suf'⟩ := t
        rw [hf] at h
        injection h with h'
        injection h' with ha hbc
        injection hbc with hb hc
        subst ha; subst hb; subst hc
        obtain ⟨hsplit, hname⟩ := ih pre' p' suf' hf
        exact ⟨by rw [hsplit]; simp, hname⟩

/-- A passing declaration guarantees that the commit-phase removal of every
meld card from the hand succeeds (`remove_card` cannot raise). -/
theorem validation_removeAll (hand : List Card) (melds : List Meld)
    (h : Validator.validate_initial_declaration hand melds = true) :
    ∃ h', Validator.removeAll hand (melds.flatMap Meld.cards) = some h' := by
  by_cases hA : Validator.cards_available_in_hand hand melds
  · simpa [Validator.cards_available_in_hand, Option.isSome_iff_exists] using hA
  · rw [Validator.validate_initial_declaration] at h
    simp [hA] at h

/-- Setting a key in the dict puts `(k, v)` first in the lookup for `k`. -/
theorem dictInsert_find_self (d : List (String × Nat)) (k : String) (v : Nat) :
    (dictInsert d k v).find? (fun kv => kv.1 = k) = some (k, v) := by
  by_cases h : d.any fun kv => kv.1 = k
  · simp only [dictInsert, if_pos h]
    induction d with
    | nil => simp at h
    | cons kv rest ih =>
      by_cases hk : kv.1 = k
      · simp [List.find?, hk]
      · simp only [List.map_cons, if_neg hk]
        rw [List.find?_cons_of_neg _ (by simp [hk])]
        exact ih (by simpa [hk] using h)
  · simp only [dictInsert, if_neg h]
    induction d with
    | nil => simp [List.find?]
    | cons kv rest ih =>
      have hk : ¬ (kv.1 = k) := fun habs => h (by simp [List.any_cons, habs])
      rw [List.cons_append, List.find?_cons_of_neg _ (by simp [hk])]
      exact ih (by intro habs; exact h (by simp [List.any_cons]; right; simpa using habs))

/-- The overwrite pass of `dictInsert` does not disturb lookups of other keys. -/
theorem find_map_other (d : List (String × Nat)) (k k' : String) (v : Nat) (hne : k' ≠ k) :
    (d.map fun kv => if kv.1 = k then (k, v) else kv).find? (fun kv => kv.1 = k')
      = d.find? (fun kv => kv.1 = k') := by
  induction d with
  | nil => simp
  | cons kv rest ih =>
    by_cases hk : kv.1 = k
    · rw [List.map_cons, if_pos hk]
      rw [List.find?_cons_of_neg _ (by simp; exact fun habs => hne habs.symm),
        List.find?_cons_of_neg _ (by simp [hk]; exact fun habs => hne habs.symm)]
      exact ih
    · rw [List.map_cons, if_neg hk]
      by_cases hk' : kv.1 = k'
      · rw [List.find?_cons_of_pos _ (by simp [hk']), List.find?_cons_of_pos _ (by simp [hk'])]
      · rw [List.find?_cons_of_neg _ (by simp [hk']), List.find?_cons_of_neg _ (by simp [hk'])]
        exact ih

/-- Setting one key leaves the lookups of every other key unchanged. -/
theorem dictInsert_find_other (d : List (String × Nat)) (k k' : String) (v : Nat)
    (hne : k' ≠ k) :
    (dictInsert d k v).find? (fun kv => kv.1 = k') = d.find? (fun kv => kv.1 = k') := by
  by_cases h : d.any fun kv => kv.1 = k
  · simp only [dictInsert, if_pos h]
    exact find_map_other d k k' v hne
  · simp only [dictInsert, if_neg h]
    rw [List.find?_append]
    cases hf : d.find? fun kv => kv.1 = k' with
    | some t => simp
    | none =>
      rw [List.find?_cons_of_neg _ (by simp; exact fun habs => hne habs.symm)]
      rfl

/-- The scoring loop skips a player carrying the closer's name. -/
theorem scoreStep_skip (closer : String) (d : List (String × Nat)) (q : Player)
    (hc : q.name = closer) : Scorer.scoreStep closer d q = d := by
  simp [Scorer.scoreStep, hc]

/-- The scoring loop writes one entry for every player other than the closer. -/
theorem scoreStep_insert (closer : String) (d : List (String × Nat)) (q : Player)
    (hc : ¬ q.name = closer) :
    Scorer.scoreStep closer d q =
      dictInsert d q.name
        (if q.has_declared then Scorer.calculate_hand_points q.hand
         else Scorer.UNDECLARED_PENALTY
           + Scorer.JOKER_PENALTY * (q.hand.filter Card.is_joker).length) := by
  by_cases hdq : q.has_declared <;> simp [Scorer.scoreStep, hc, hdq]

/-- The scoring loop over players none of whom carry key `k` leaves the `k`
lookup untouched. -/
theorem scoreFold_preserve (players : List Player) (closer k : String)
    (hk : ∀ q ∈ players, q.name ≠ k) :
    ∀ d : List (String × Nat),
      (players.foldl (Scorer.scoreStep closer) d).find? (fun kv => kv.1 = k)
        = d.find? (fun kv => kv.1 = k) := by
  induction players with
  | nil => intro d; simp
  | cons q rest ih =>
    intro d
    rw [List.foldl_cons]
    rw [ih (fun q2 hq2 => hk q2 (List.mem_cons_of_mem _ hq2))]
    have hqk : k ≠ q.name := fun habs => hk q (List.mem_cons_self q rest) habs.symm
    by_cases hc : q.name = closer
    · rw [scoreStep_skip closer d q hc]
    · rw [scoreStep_insert closer d q hc]
      exact dictInsert_find_other d q.name k _ hqk

/-- The closer's zero entry survives the whole scoring loop. -/
theorem scoreFold_closer (players : List Player) (closer : String) :
    ∀ d : List (String × Nat),
      d.find? (fun kv => kv.1 = closer) = some (closer, 0) →
      (players.foldl (Scorer.scoreStep closer) d).find? (fun kv => kv.1 = closer)
        = some (closer, 0) := by
  induction players with
  | nil => intro d hd; simpa using hd
  | cons q rest ih =>
    intro d hd
    rw [List.foldl_cons]
    apply ih
    by_cases hc : q.name = closer
    · rw [scoreStep_skip closer d q hc]; exact hd
    · rw [scoreStep_insert closer d q hc]
      rw [dictInsert_find_other d q.name closer _ fun habs => hc habs.symm]
      exact hd

/-- With duplicate-free names, each non-closer player ends the scoring loop
with exactly the entry the loop computed for them. -/
theorem scoreFold_member (players : List Player) (closer : String) (p : Player)
    (hp : p ∈ players) (hnodup : (players.map Player.name).Nodup)
    (hpc : p.name ≠ closer) :
    ∀ d : List (String × Nat),
      (players.foldl (Scorer.scoreStep closer) d).find? (fun kv => kv.1 = p.name)
        = some (p.name,
            if p.has_declared then Scorer.calculate_hand_points p.hand
            else Scorer.UNDECLARED_PENALTY
              + Scorer.JOKER_PENALTY * (p.hand.filter Card.is_joker).length) := by
  induction players with
  | nil => simp at hp
  | cons q rest ih =>
    intro d
    rw [List.foldl_cons]
    rcases List.mem_cons.mp hp with hpq | hprest
    · subst hpq
      have hfresh : ∀ q2 ∈ rest, q2.name ≠ p.name := by
        intro q2 hq2 habs
        have := (List.nodup_cons.mp hnodup).1
        exact this (habs ▸ List.mem_map_of_mem Player.name hq2)
      rw [scoreFold_preserve rest closer p.name hfresh]
      rw [scoreStep_insert closer d p hpc]
      exact dictInsert_find_self d p.name _
    · exact ih hprest (List.nodup_cons.mp hnodup).2 (Scorer.scoreStep closer d q)

/-- Soundness of the `_is_valid_set` accumulator loop: a successful run
returns the collected suits and joker count, and certifies uniform non-joker
ranks and duplicate-free non-joker suits. -/
theorem setLoop_sound (cards : List Card) :
    ∀ (br : Option String) (su : List String) (jc : Nat)
      (out : Option String × List String × Nat),
      Validator.setLoop br su jc cards = some out →
      out.2.1 = su ++ (cards.filter fun c => !c.is_joker).map Card.suit ∧
      out.2.2 = jc + (cards.filter Card.is_joker).length ∧
      (∀ c ∈ cards.filter fun c => !c.is_joker, c.suit ∉ su) ∧
      ((cards.filter fun c => !c.is_joker).map Card.suit).Nodup ∧
      (∀ c ∈ cards.filter fun c => !c.is_joker,
        ∀ d ∈ cards.filter fun c => !c.is_joker, c.rank = d.rank) ∧
      (∀ r, br = some r → ∀ c ∈ cards.filter fun c => !c.is_joker, c.rank = r) := by
  induction cards with
  | nil =>
    intro br su jc out h
    simp only [Validator.setLoop, Option.some.injEq] at h
    subst h
    simp
  | cons c cs ih =>
    intro br su jc out h
    by_cases hj : c.is_joker
    · simp only [Validator.setLoop, hj, if_true] at h
      obtain ⟨h1, h2, h3, h4, h5, h6⟩ := ih br su (jc + 1) out h
      refine ⟨by simpa [List.filter_cons, hj] using h1, ?_,
        by simpa [List.filter_cons, hj] using h3,
        by simpa [List.filter_cons, hj] using h4,
        by simpa [List.filter_cons, hj] using h5,
        by simpa [List.filter_cons, hj] using h6⟩
      simp only [List.filter_cons, hj, if_pos, List.length_cons]
      omega
    · have hjf : c.is_joker = false := by simpa using hj
      have hfe : (c :: cs).filter (fun c => !c.is_joker) = c :: cs.filter fun c => !c.is_joker := by
        simp [List.filter_cons, hjf]
      have hje : (c :: cs).filter Card.is_joker = cs.filter Card.is_joker := by
        simp [List.filter_cons, hjf]
      cases br with
      | none =>
        simp only [Validator.setLoop, hjf, Bool.false_eq_true, if_false] at h
        by_cases hsu : c.suit ∈ su
        · rw [if_pos hsu] at h; simp at h
        · rw [if_neg hsu] at h
          obtain ⟨h1, h2, h3, h4, h5, h6⟩ := ih (some c.rank) (su ++ [c.suit]) jc out h
          have hrest : ∀ d ∈ cs.filter fun c => !c.is_joker, d.rank = c.rank :=
            h6 c.rank rfl
          refine ⟨?_, by simpa [hje] using h2, ?_, ?_, ?_, ?_⟩
          · rw [hfe]; rw [h1]; simp
          · rw [hfe]
            intro d hd
            rcases List.mem_cons.mp hd with rfl | hd'
            · exact hsu
            · intro habs
              exact (h3 d hd') (List.mem_append_left _ habs)
          · rw [hfe]
            simp only [List.map_cons, List.nodup_cons]
            refine ⟨?_, h4⟩
            intro habs
            obtain ⟨d, hd, hds⟩ := List.mem_map.mp habs
            exact (h3 d hd) (List.mem_append_right _ (by simp [hds]))
          · rw [hfe]
            intro a ha b hb
            rcases List.mem_cons.mp ha with rfl | ha' <;>
              rcases List.mem_cons.mp hb with rfl | hb'
            · rfl
            · exact (hrest b hb').symm
            · exact hrest a ha'
            · rw [hrest a ha', hrest b hb']
          · intro r hr; cases hr
      | some r0 =>
        simp only [Validator.setLoop, hjf, Bool.false_eq_true, if_false] at h
        by_cases hrk : c.rank = r0
        · rw [if_neg (by simpa using hrk)] at h
          by_cases hsu : c.suit ∈ su
          · rw [if_pos hsu] at h; simp at h
          · rw [if_neg hsu] at h
            obtain ⟨h1, h2, h3, h4, h5, h6⟩ := ih (some r0) (su ++ [c.suit]) jc out h
            have hrest : ∀ d ∈ cs.filter fun c => !c.is_joker, d.rank = r0 :=
              h6 r0 rfl
            refine ⟨?_, by simpa [hje] using h2, ?_, ?_, ?_, ?_⟩
            · rw [hfe]; rw [h1]; simp
            · rw [hfe]
              intro d hd
              rcases List.mem_cons.mp hd with rfl | hd'
              · exact hsu
              · intro habs
                exact (h3 d hd') (List.mem_append_left _ habs)
            · rw [hfe]
              simp only [List.map_cons, List.nodup_cons]
              refine ⟨?_, h4⟩
              intro habs
              obtain ⟨d, hd, hds⟩ := List.mem_map.mp habs
              exact (h3 d hd) (List.mem_append_right _ (by simp [hds]))
            · rw [hfe]
              intro a ha b hb
              rcases List.mem_cons.mp ha with rfl | ha' <;>
                rcases List.mem_cons.mp hb with rfl | hb'
              · rfl
              · rw [hrk, hrest b hb']
              · rw [hrk, hrest a ha']
              · rw [hrest a ha', hrest b hb']
            · intro r hr c2 hc2
              injection hr with hr0
              subst hr0
              rw [hfe] at hc2
              rcases List.mem_cons.mp hc2 with rfl | hc2'
              · exact hrk
              · exact hrest c2 hc2'
        · rw [if_pos (by simpa using hrk)] at h
          simp at h

/-- Completeness of the `_is_valid_set` accumulator loop: under uniform
non-joker ranks and duplicate-free fresh suits, the loop succeeds with the
collected suits and joker count. -/
theorem setLoop_complete (cards : List Card) :
    ∀ (br : Option String) (su : List String) (jc : Nat),
      (∀ c ∈ cards.filter fun c => !c.is_joker, c.suit ∉ su) →
      ((cards.filter fun c => !c.is_joker).map Card.suit).Nodup →
      (∀ r, br = some r → ∀ c ∈ cards.filter fun c => !c.is_joker, c.rank = r) →
      (∀ c ∈ cards.filter fun c => !c.is_joker,
        ∀ d ∈ cards.filter fun c => !c.is_joker, c.rank = d.rank) →
      ∃ br2, Validator.setLoop br su jc cards
        = some (br2, su ++ (cards.filter fun c => !c.is_joker).map Card.suit,
            jc + (cards.filter Card.is_joker).length) := by
  induction cards with
  | nil =>
    intro br su jc _ _ _ _
    exact ⟨br, by simp [Validator.setLoop]⟩
  | cons c cs ih =>
    intro br su jc hsu hnodup hbase hrank
    by_cases hj : c.is_joker
    · have hfe : (c :: cs).filter (fun c => !c.is_joker) = cs.filter fun c => !c.is_joker := by
        simp [List.filter_cons, hj]
      rw [hfe] at hsu hnodup hbase hrank
      obtain ⟨br2, hbr2⟩ := ih br su (jc + 1) hsu hnodup hbase hrank
      refine ⟨br2, ?_⟩
      have hjel : ((c :: cs).filter Card.is_joker).length
          = (cs.filter Card.is_joker).length + 1 := by
        simp [List.filter_cons, hj]
      simp only [Validator.setLoop, hj, if_true]
      rw [hbr2, hfe, hjel,
        show jc + ((cs.filter Card.is_joker).length + 1)
          = (jc + 1) + (cs.filter Card.is_joker).length from by omega]
    · have hjf : c.is_joker = false := by simpa using hj
      have hfe : (c :: cs).filter (fun c => !c.is_joker) = c :: cs.filter fun c => !c.is_joker := by
        simp [List.filter_cons, hjf]
      have hje : (c :: cs).filter Card.is_joker = cs.filter Card.is_joker := by
        simp [List.filter_cons, hjf]
      rw [hfe] at hsu hnodup hbase hrank
      rw [List.map_cons] at hnodup
      obtain ⟨hcnotin, hnodup2⟩ := List.nodup_cons.mp hnodup
      have hcsu : c.suit ∉ su := hsu c (List.mem_cons_self _ _)
      have hsu2 : ∀ d ∈ cs.filter fun c => !c.is_joker, d.suit ∉ su ++ [c.suit] := by
        intro d hd habs
        rcases List.mem_append.mp habs with h1 | h1
        · exact hsu d (List.mem_cons_of_mem _ hd) h1
        · have hds : d.suit = c.suit := by simpa using h1
          exact hcnotin (hds ▸ List.mem_map_of_mem Card.suit hd)
      have hrank2 : ∀ a ∈ cs.filter fun c => !c.is_joker,
          ∀ b ∈ cs.filter fun c => !c.is_joker, a.rank = b.rank := by
        intro a ha b hb
        exact hrank a (List.mem_cons_of_mem _ ha) b (List.mem_cons_of_mem _ hb)
      have hbase2 : ∀ r, some c.rank = some r →
          ∀ d ∈ cs.filter fun c => !c.is_joker, d.rank = r := by
        intro r hr d hd
        injection hr with hr0
        subst hr0
        exact hrank d (List.mem_cons_of_mem _ hd) c (List.mem_cons_self _ _)
      cases br with
      | none =>
        obtain ⟨br2, hbr2⟩ := ih (some c.rank) (su ++ [c.suit]) jc hsu2 hnodup2 hbase2 hrank2
        refine ⟨br2, ?_⟩
        simp only [Validator.setLoop, hjf, Bool.false_eq_true, if_false]
        rw [if_neg hcsu, hbr2, hfe, hje]
        simp
      | some r0 =>
        have hcr : c.rank = r0 := hbase r0 rfl c (List.mem_cons_self _ _)
        have hbase2r : ∀ r, (some r0 : Option String) = some r →
            ∀ d ∈ cs.filter fun c => !c.is_joker, d.rank = r := by
          intro r hr d hd
          injection hr with hr0
          subst hr0
          exact hbase r0 rfl d (List.mem_cons_of_mem _ hd)
        obtain ⟨br2, hbr2⟩ := ih (some r0) (su ++ [c.suit]) jc hsu2 hnodup2 hbase2r hrank2
        refine ⟨br2, ?_⟩
        simp only [Validator.setLoop, hjf, Bool.false_eq_true, if_false]
        rw [if_neg (by simpa using hcr), if_neg hcsu, hbr2, hfe, hje]
        simp

/-- Non-joker and joker cards partition a card list. -/
theorem filter_partition (cards : List Card) :
    (cards.filter fun c => !c.is_joker).length + (cards.filter Card.is_joker).length
      = cards.length := by
  induction cards with
  | nil => rfl
  | cons c cs ih =>
    by_cases hj : c.is_joker <;> simp [List.filter_cons, hj] <;> omega

/-- The code's set check agrees exactly with the spec's description. -/
theorem is_valid_set_iff (cards : List Card) :
    Validator.is_valid_set cards = true ↔ validSetSpec cards := by
  constructor
  · intro h
    rw [Validator.is_valid_set] at h
    by_cases h3 : cards.length < 3
    · rw [if_pos h3] at h; simp at h
    · rw [if_neg h3] at h
      cases hsl : Validator.setLoop none [] 0 cards with
      | none => rw [hsl] at h; simp at h
      | some out =>
        obtain ⟨br, su, jc⟩ := out
        rw [hsl] at h
        obtain ⟨h1, h2, _, h4, h5, _⟩ := setLoop_sound cards none [] 0 (br, su, jc) hsl
        simp only [List.nil_append, Nat.zero_add] at h1 h2
        refine ⟨by omega, h5, h4, ?_⟩
        simp only [decide_eq_true_eq] at h
        rw [h1, h2] at h
        rw [List.length_map] at h ⊢
        omega
  · intro hspec
    obtain ⟨hs3, hranks, hnodup, hcount⟩ := hspec
    obtain ⟨br2, hsl⟩ :=
      setLoop_complete cards none [] 0 (by simp) hnodup (by intro r hr; cases hr) hranks
    rw [Validator.is_valid_set, if_neg (by omega), hsl]
    simp only [decide_eq_true_eq, List.nil_append]
    rw [List.length_map] at hcount ⊢
    omega

/-- Every accepted set has at most 4 cards. -/
theorem valid_set_card_bound (cards : List Card) :
    Validator.is_valid_set cards = true → cards.length ≤ 4 := by
  intro h
  obtain ⟨_, _, _, hcount⟩ := (is_valid_set_iff cards).mp h
  have hpart := filter_partition cards
  rw [List.length_map] at hcount
  omega

/-- `next_turn` never touches the closed flag. -/
theorem nextTurn_closed (gs : GameState) :
    gs.next_turn.is_game_closed = gs.is_game_closed := by
  by_cases h : gs.players.isEmpty
  · simp [GameState.next_turn, h]
  · by_cases h2 : gs.current_player_index + 1 ≥ gs.players.length <;>
      simp [GameState.next_turn, h, h2]

/-- The set loop over an all-joker list just counts the jokers. -/
theorem setLoop_all_jokers (cards : List Card) (h : ∀ c ∈ cards, c.is_joker = true) :
    ∀ jc : Nat, Validator.setLoop none [] jc cards = some (none, [], jc + cards.length) := by
  induction cards with
  | nil => intro jc; simp [Validator.setLoop]
  | cons c cs ih =>
    intro jc
    have hc := h c (by simp)
    have hrest := ih fun d hd => h d (List.mem_cons_of_mem _ hd)
    simp [Validator.setLoop, hc, hrest (jc + 1)]
    omega

/-- Serializing then deserializing a card is the identity. -/
theorem card_roundtrip_comp : Card.from_dict ∘ Card.to_dict = id := by
  funext c
  rfl

/-- Serializing then deserializing a card is the identity, pointwise. -/
theorem card_roundtrip (c : Card) : Card.from_dict (Card.to_dict c) = c := rfl

/-- Serializing then deserializing a meld is the identity. -/
theorem meld_roundtrip (m : Meld) : Meld.from_dict (Meld.to_dict m) = m := by
  simp [Meld.from_dict, Meld.to_dict, List.map_map, card_roundtrip_comp]

/-- Serializing then deserializing a player restores everything but resets the
accumulated score to 0 (the snapshot has no score field). -/
theorem player_roundtrip (p : Player) :
    Player.from_dict (Player.to_dict p) = { p with score := 0 } := by
  simp [Player.from_dict, Player.to_dict, List.map_map, card_roundtrip_comp]

/-- Wrapping phase of `next_turn`: when exactly `m + 1` calls remain before the
end of the player list, they land on index 0 and bump the round. -/
theorem next_turn_wrap (m : Nat) : ∀ gs : GameState,
    gs.players.length = gs.current_player_index + m + 1 →
    GameState.next_turn^[m + 1] gs =
      { gs with current_player_index := 0, current_round := gs.current_round + 1 } := by
  induction m with
  | zero =>
    intro gs hlen
    have hne : gs.players.isEmpty = false := by
      cases hp : gs.players with
      | nil => rw [hp] at hlen; simp at hlen
      | cons a l => simp [hp]
    simp only [zero_add, Function.iterate_one]
    simp [GameState.next_turn, hne, hlen]
  | succ m ih =>
    intro gs hlen
    rw [Function.iterate_succ_apply]
    have hne : gs.players.isEmpty = false := by
      cases hp : gs.players with
      | nil => rw [hp] at hlen; simp at hlen
      | cons a l => simp [hp]
    have hlt : ¬ (gs.current_player_index + 1 ≥ gs.players.length) := by omega
    have hstep : GameState.next_turn gs =
        { gs with current_player_index := gs.current_player_index + 1 } := by
      simp [GameState.next_turn, hne, hlt]
    rw [hstep]
    have := ih { gs with current_player_index := gs.current_player_index + 1 } (by simp; omega)
    simpa using this

/-- Running phase of `next_turn`: short of the end of the player list, each
call just advances the index. -/
theorem next_turn_run (m : Nat) : ∀ gs : GameState,
    gs.current_player_index + m < gs.players.length →
    GameState.next_turn^[m] gs =
      { gs with current_player_index := gs.current_player_index + m } := by
  induction m with
  | zero => intro gs _; simp
  | succ m ih =>
    intro gs hlt
    rw [Function.iterate_succ_apply]
    have hne : gs.players.isEmpty = false := by
      cases hp : gs.players with
      | nil => rw [hp] at hlt; simp at hlt
      | cons a l => simp [hp]
    have hlt1 : ¬ (gs.current_player_index + 1 ≥ gs.players.length) := by omega
    have hstep : GameState.next_turn gs =
        { gs with current_player_index := gs.current_player_index + 1 } := by
      simp [GameState.next_turn, hne, hlt1]
    rw [hstep]
    have := ih { gs with current_player_index := gs.current_player_index + 1 } (by simp; omega)
    simpa [Nat.add_assoc, Nat.add_comm 1 m] using this

/-- A draw keeps the discard pile and removes one card from a non-empty
draw pile. -/
theorem applyOp_draw (d : Deck) :
    (applyOp d .draw).discard_pile = d.discard_pile ∧
    (applyOp d .draw).cards_remaining + (if d.draw_pile.isEmpty then 0 else 1)
      = d.cards_remaining := by
  cases hg : d.draw_pile.getLast? with
  | none =>
    have hnil : d.draw_pile = [] := by simpa using hg
    simp [applyOp, Deck.draw, hg, hnil, Deck.cards_remaining]
  | some c =>
    have hne : d.draw_pile ≠ [] := by
      intro habs
      rw [habs] at hg
      simp at hg
    have hemp : d.draw_pile.isEmpty = false := by simpa [List.isEmpty_iff] using hne
    simp [applyOp, Deck.draw, hg, hemp, Deck.cards_remaining, List.length_dropLast]
    have : d.draw_pile.length ≠ 0 := by simpa using fun h => hne (List.length_eq_zero.mp h)
    omega

/-- Conservation along any operation sequence: pile sizes plus successful
draws balance the starting sizes plus discards. -/
theorem deck_conservation (ops : List DeckOp) : ∀ d : Deck,
    (applyOps d ops).cards_remaining + (applyOps d ops).discard_pile_size
      + successfulDraws d ops
    = d.cards_remaining + d.discard_pile_size + numDiscards ops := by
  induction ops with
  | nil => intro d; simp [applyOps, successfulDraws, numDiscards]
  | cons op rest ih =>
    intro d
    cases op with
    | draw =>
      have H := ih (applyOp d .draw)
      have h1 := applyOp_draw d
      simp only [applyOps, successfulDraws, numDiscards]
      have hdisc : (applyOp d .draw).discard_pile_size = d.discard_pile_size := by
        simp [Deck.discard_pile_size, h1.1]
      by_cases hd : d.draw_pile.isEmpty <;> simp [hd] at h1 ⊢ <;> omega
    | discard c =>
      have H := ih (applyOp d (.discard c))
      have h2 : (applyOp d (.discard c)).cards_remaining = d.cards_remaining ∧
          (applyOp d (.discard c)).discard_pile_size = d.discard_pile_size + 1 := by
        simp [applyOp, Deck.discard, Deck.cards_remaining, Deck.discard_pile_size]
      simp only [applyOps, successfulDraws, numDiscards]
      omega

/-! ## Claim theorems -/

/-- C1: `validate_and_process_declaration` raises NotFound exactly when no
player has the given name; a `false` return (already declared, or any failed
validation check) leaves the whole state unchanged; a `true` return marks the
found player declared, removes one copy of every meld card by value from
their hand, and appends every meld to the table, as one atomic update with
everything else unchanged. -/
theorem claim_C1_declaration : ∀ (gs : GameState) (player_name : String) (melds : List Meld),
    (exceptIsError (gs.validate_and_process_declaration player_name melds) = true ↔
      ∀ p ∈ gs.players, p.name ≠ player_name) ∧
    (∀ gs2, gs.validate_and_process_declaration player_name melds = .ok (false, gs2) →
      gs2 = gs) ∧
    (∀ gs2, gs.validate_and_process_declaration player_name melds = .ok (true, gs2) →
      ∃ pre player suf newHand,
        gs.players = pre ++ player :: suf ∧
        player.name = player_name ∧
        player.has_declared = false ∧
        Validator.validate_initial_declaration player.hand melds = true ∧
        Validator.removeAll player.hand (melds.flatMap Meld.cards) = some newHand ∧
        gs2 = { gs with
                  players := pre ++ { player with has_declared := true, hand := newHand } :: suf,
                  melds_on_table := gs.melds_on_table ++ melds }) := by
  intro gs pn melds
  cases hf : findPlayer gs.players pn with
  | none =>
    have hall := (findPlayer_none_iff gs.players pn).mp hf
    refine ⟨?_, ?_, ?_⟩
    · simp only [GameState.validate_and_process_declaration, hf, exceptIsError]
      exact ⟨fun _ => hall, fun _ => trivial⟩
    · intro gs2 h
      simp only [GameState.validate_and_process_declaration, hf] at h
      exact Except.noConfusion h
    · intro gs2 h
      simp only [GameState.validate_and_process_declaration, hf] at h
      exact Except.noConfusion h
  | some t =>
    obtain ⟨pre, player, suf⟩ := t
    obtain ⟨hsplit, hname⟩ := findPlayer_some gs.players pn pre player suf hf
    have hmem : player ∈ gs.players := by rw [hsplit]; simp
    have hnotall : ¬ (∀ p ∈ gs.players, p.name ≠ pn) := fun hall => hall player hmem hname
    by_cases hd : player.has_declared
    · refine ⟨?_, ?_, ?_⟩
      · simp only [GameState.validate_and_process_declaration, hf, if_pos hd, exceptIsError]
        exact ⟨fun habs => absurd habs (by simp), fun hall => absurd hall hnotall⟩
      · intro gs2 h
        simp only [GameState.validate_and_process_declaration, hf, if_pos hd] at h
        injection h with h2
        injection h2 with _ h3
        exact h3.symm
      · intro gs2 h
        simp only [GameState.validate_and_process_declaration, hf, if_pos hd] at h
        injection h with h2
        injection h2 with h3 _
        simp at h3
    · by_cases hv : Validator.validate_initial_declaration player.hand melds = true
      · obtain ⟨nh, hnh⟩ := validation_removeAll player.hand melds hv
        have hres : gs.validate_and_process_declaration pn melds =
            .ok (true, { gs with
              players := pre ++ { player with has_declared := true, hand := nh } :: suf,
              melds_on_table := gs.melds_on_table ++ melds }) := by
          simp only [GameState.validate_and_process_declaration, hf, if_neg hd, hv,
            Bool.not_true, Bool.false_eq_true, if_false, hnh]
        refine ⟨?_, ?_, ?_⟩
        · rw [hres]
          simp only [exceptIsError]
          exact ⟨fun habs => absurd habs (by simp), fun hall => absurd hall hnotall⟩
        · intro gs2 h
          rw [hres] at h
          injection h with h2
          injection h2 with h3 _
          simp at h3
        · intro gs2 h
          rw [hres] at h
          injection h with h2
          injection h2 with _ h3
          exact ⟨pre, player, suf, nh, hsplit, hname, by simpa using hd, hv, hnh, h3.symm⟩
      · have hres : gs.validate_and_process_declaration pn melds = .ok (false, gs) := by
          simp only [GameState.validate_and_process_declaration, hf, if_neg hd]
          rw [if_pos (by simpa using hv)]
        refine ⟨?_, ?_, ?_⟩
        · rw [hres]
          simp only [exceptIsError]
          exact ⟨fun habs => absurd habs (by simp), fun hall => absurd hall hnotall⟩
        · intro gs2 h
          rw [hres] at h
          injection h with h2
          injection h2 with _ h3
          exact h3.symm
        · intro gs2 h
          rw [hres] at h
          injection h with h2
          injection h2 with h3 _
          simp at h3

/-- Witness for C1: on a game with no players every lookup raises NotFound. -/
theorem claim_C1_declaration_witness :
    exceptIsError (emptyGame.validate_and_process_declaration "X" []) = true :=
  (claim_C1_declaration emptyGame "X" []).1.mpr (by decide)

/-- C2: for every suit, the sequence validator accepts the unordered high
sequence A,K,Q of that suit through its special case, yet rejects J,Q,K,A of
the same suit under the low-ace value mapping — no sequence may span the
King-to-Ace boundary. -/
theorem claim_C2_ace_boundary (s : String) :
    Validator.is_valid_sequence [⟨s, "A", false⟩, ⟨s, "K", false⟩, ⟨s, "Q", false⟩] = true ∧
    Validator.is_valid_sequence
      [⟨s, "J", false⟩, ⟨s, "Q", false⟩, ⟨s, "K", false⟩, ⟨s, "A", false⟩] = false := by
  constructor <;>
    simp [Validator.is_valid_sequence, Validator.can_form_sequence_with_jokers,
      Validator.get_rank_values, Validator.rank_to_value, Validator.buildUnique,
      Validator.gapsNeeded, List.insertionSort, List.orderedInsert] <;> decide

/-- Witness for C2 at the concrete suit Hearts. -/
theorem claim_C2_ace_boundary_witness :
    Validator.is_valid_sequence
      [⟨"Hearts", "A", false⟩, ⟨"Hearts", "K", false⟩, ⟨"Hearts", "Q", false⟩] = true ∧
    Validator.is_valid_sequence
      [⟨"Hearts", "J", false⟩, ⟨"Hearts", "Q", false⟩, ⟨"Hearts", "K", false⟩,
       ⟨"Hearts", "A", false⟩] = false :=
  claim_C2_ace_boundary "Hearts"

/-- C3, counterexample to the claim as stated: on a closed one-player game,
`next_turn` — an engine operation — still mutates the turn state: the round
advances. -/
theorem claim_C3_counterexample :
    gsClosedOne.is_game_closed = true ∧
    (GameState.next_turn gsClosedOne).current_round ≠ gsClosedOne.current_round := by
  decide

/-- C3 (amended): `close_game` raises NotFound exactly when no player has the
name, returns false leaving all state unchanged when the hand is non-empty,
and otherwise closes the game, records the closer, stores the engine-computed
scores and adds each onto the matching player; `is_game_closed`, once true, is
never reset by `next_turn`, `validate_and_process_declaration`,
`add_meld_to_table` or `close_game` — but these operations are not disabled on
a closed game and may still mutate it. -/
theorem claim_C3_closure :
    (∀ (gs : GameState) (pn : String),
      (exceptIsError (gs.close_game pn) = true ↔ ∀ p ∈ gs.players, p.name ≠ pn) ∧
      (∀ gs2, gs.close_game pn = .ok (false, gs2) → gs2 = gs) ∧
      (∀ pre p suf, findPlayer gs.players pn = some (pre, p, suf) → p.hand ≠ [] →
        gs.close_game pn = .ok (false, gs)) ∧
      (∀ gs2, gs.close_game pn = .ok (true, gs2) →
        gs2 = { gs with
          is_game_closed := true,
          closer_name := some pn,
          scores := Scorer.calculate_scores
            { gs with is_game_closed := true, closer_name := some pn } pn,
          players := gs.players.map fun p =>
            { p with score := p.score + dictGet (Scorer.calculate_scores
                { gs with is_game_closed := true, closer_name := some pn } pn) p.name 0 } })) ∧
    (∀ gs : GameState, gs.is_game_closed = true →
      gs.next_turn.is_game_closed = true ∧
      (∀ m, (gs.add_meld_to_table m).is_game_closed = true) ∧
      (∀ pn melds b gs2, gs.validate_and_process_declaration pn melds = .ok (b, gs2) →
        gs2.is_game_closed = true) ∧
      (∀ pn b gs2, gs.close_game pn = .ok (b, gs2) → gs2.is_game_closed = true)) := by
  constructor
  · intro gs pn
    cases hf : findPlayer gs.players pn with
    | none =>
      have hall := (findPlayer_none_iff gs.players pn).mp hf
      refine ⟨?_, ?_, ?_, ?_⟩
      · simp only [GameState.close_game, hf, exceptIsError]
        exact ⟨fun _ => hall, fun _ => trivial⟩
      · intro gs2 h
        simp only [GameState.close_game, hf] at h
        exact Except.noConfusion h
      · intro pre p suf h
        exact Option.noConfusion h
      · intro gs2 h
        simp only [GameState.close_game, hf] at h
        exact Except.noConfusion h
    | some t =>
      obtain ⟨pre, player, suf⟩ := t
      obtain ⟨hsplit, hname⟩ := findPlayer_some gs.players pn pre player suf hf
      have hmem : player ∈ gs.players := by rw [hsplit]; simp
      have hnotall : ¬ (∀ p ∈ gs.players, p.name ≠ pn) := fun hall => hall player hmem hname
      by_cases hh : player.hand.length > 0
      · have hres : gs.close_game pn = .ok (false, gs) := by
          simp only [GameState.close_game, hf, if_pos hh]
        refine ⟨?_, ?_, ?_, ?_⟩
        · rw [hres]
          simp only [exceptIsError]
          exact ⟨fun habs => absurd habs (by simp), fun hall => absurd hall hnotall⟩
        · intro gs2 h
          rw [hres] at h
          injection h with h2
          injection h2 with _ h3
          exact h3.symm
        · intro pre2 p2 suf2 h2 _
          exact hres
        · intro gs2 h
          rw [hres] at h
          injection h with h2
          injection h2 with h3 _
          simp at h3
      · have hres : gs.close_game pn = .ok (true,
            { gs with
              is_game_closed := true,
              closer_name := some pn,
              scores := Scorer.calculate_scores
                { gs with is_game_closed := true, closer_name := some pn } pn,
              players := gs.players.map fun p =>
                { p with score := p.score + dictGet (Scorer.calculate_scores
                    { gs with is_game_closed := true, closer_name := some pn } pn) p.name 0 } }) := by
          simp only [GameState.close_game, hf, if_neg hh]
        refine ⟨?_, ?_, ?_, ?_⟩
        · rw [hres]
          simp only [exceptIsError]
          exact ⟨fun habs => absurd habs (by simp), fun hall => absurd hall hnotall⟩
        · intro gs2 h
          rw [hres] at h
          injection h with h2
          injection h2 with h3 _
          simp at h3
        · intro pre2 p2 suf2 h2 hne
          injection h2 with h3
          injection h3 with ha hbc
          injection hbc with hb hc
          subst hb
          exact absurd (List.length_eq_zero.mp (by omega)) hne
        · intro gs2 h
          rw [hres] at h
          injection h with h2
          injection h2 with _ h3
          exact h3.symm
  · intro gs hclosed
    refine ⟨?_, ?_, ?_, ?_⟩
    · rw [nextTurn_closed]; exact hclosed
    · intro m; simpa [GameState.add_meld_to_table] using hclosed
    · intro pn melds b gs2 h
      cases hf : findPlayer gs.players pn with
      | none => simp only [GameState.validate_and_process_declaration, hf] at h
                exact Except.noConfusion h
      | some t =>
        obtain ⟨pre, player, suf⟩ := t
        by_cases hd : player.has_declared
        · simp only [GameState.validate_and_process_declaration, hf, if_pos hd] at h
          injection h with h2
          injection h2 with _ h3
          rw [← h3]; exact hclosed
        · by_cases hv : Validator.validate_initial_declaration player.hand melds = true
          · obtain ⟨nh, hnh⟩ := validation_removeAll player.hand melds hv
            simp only [GameState.validate_and_process_declaration, hf, if_neg hd, hv,
              Bool.not_true, Bool.false_eq_true, if_false, hnh] at h
            injection h with h2
            injection h2 with _ h3
            rw [← h3]; exact hclosed
          · simp only [GameState.validate_and_process_declaration, hf, if_neg hd] at h
            rw [if_pos (by simpa using hv)] at h
            injection h with h2
            injection h2 with _ h3
            rw [← h3]; exact hclosed
    · intro pn b gs2 h
      cases hf : findPlayer gs.players pn with
      | none => simp only [GameState.close_game, hf] at h
                exact Except.noConfusion h
      | some t =>
        obtain ⟨pre, player, suf⟩ := t
        by_cases hh : player.hand.length > 0
        · simp only [GameState.close_game, hf, if_pos hh] at h
          injection h with h2
          injection h2 with _ h3
          rw [← h3]; exact hclosed
        · simp only [GameState.close_game, hf, if_neg hh] at h
          injection h with h2
          injection h2 with _ h3
          rw [← h3]

/-- Witness for C3: a concrete closed game stays closed across `next_turn`. -/
theorem claim_C3_closure_witness :
    gsClosedOne.is_game_closed = true ∧
    (GameState.next_turn gsClosedOne).is_game_closed = true :=
  ⟨by decide, (claim_C3_closure.2 gsClosedOne (by decide)).1⟩

/-- C4: `calculate_scores` maps the closer to 0; with duplicate-free names,
every other undeclared player to 100 plus 50 per joker in hand, and every
other declared player to their remaining hand points (joker = 10); the §8
closure scenario yields P1=0, P2=150, P3=20. -/
theorem claim_C4_scores :
    (∀ (gs : GameState) (closer : String),
      (Scorer.calculate_scores gs closer).find? (fun kv => kv.1 = closer)
        = some (closer, 0)) ∧
    (∀ (gs : GameState) (closer : String) (p : Player),
      (gs.players.map Player.name).Nodup → p ∈ gs.players → p.name ≠ closer →
      (Scorer.calculate_scores gs closer).find? (fun kv => kv.1 = p.name)
        = some (p.name,
            if p.has_declared then Scorer.calculate_hand_points p.hand
            else Scorer.UNDECLARED_PENALTY
              + Scorer.JOKER_PENALTY * (p.hand.filter Card.is_joker).length)) ∧
    Scorer.calculate_scores closureScenario "P1" = [("P1", 0), ("P2", 150), ("P3", 20)] := by
  refine ⟨?_, ?_, ?_⟩
  · intro gs closer
    exact scoreFold_closer gs.players closer _ (dictInsert_find_self [] closer 0)
  · intro gs closer p hnodup hp hpc
    exact scoreFold_member gs.players closer p hp hnodup hpc _
  · decide

/-- Witness for C4: in the §8 scenario the undeclared P2 holding one joker is
looked up at 150 points. -/
theorem claim_C4_scores_witness :
    (closureScenario.players.map Player.name).Nodup ∧
    (Scorer.calculate_scores closureScenario "P1").find? (fun kv => kv.1 = "P2")
      = some ("P2", 150) :=
  ⟨by decide,
   claim_C4_scores.2.1 closureScenario "P1" ⟨"P2", [jokerCard], false, 0⟩
     (by decide) (by decide) (by decide)⟩

/-- C5: the set validator accepts exactly the candidate lists with at least 3
cards, uniform non-joker rank, pairwise-distinct non-joker suits, and jokers
at most 4 minus the distinct suits; consequently every accepted set has at
most 4 cards. -/
theorem claim_C5_set_rule : ∀ cards : List Card,
    (Validator.is_valid_set cards = true ↔ validSetSpec cards) ∧
    (Validator.is_valid_set cards = true → cards.length ≤ 4) :=
  fun cards => ⟨is_valid_set_iff cards, valid_set_card_bound cards⟩

/-- Witness for C5: the spec predicate certifies K♥ K♠ K♣, and the accepted
set has at most 4 cards. -/
theorem claim_C5_set_rule_witness :
    Validator.is_valid_set
      [⟨"Hearts", "K", false⟩, ⟨"Spades", "K", false⟩, ⟨"Clubs", "K", false⟩] = true ∧
    ([⟨"Hearts", "K", false⟩, ⟨"Spades", "K", false⟩, ⟨"Clubs", "K", false⟩] : List Card).length
      ≤ 4 :=
  ⟨(claim_C5_set_rule
      [⟨"Hearts", "K", false⟩, ⟨"Spades", "K", false⟩, ⟨"Clubs", "K", false⟩]).1.mpr
     (by unfold validSetSpec; decide),
   (claim_C5_set_rule
      [⟨"Hearts", "K", false⟩, ⟨"Spades", "K", false⟩, ⟨"Clubs", "K", false⟩]).2 (by decide)⟩

/-- C6: `validate_initial_declaration` succeeds exactly when all four checks
pass — availability of every meld card in the hand, at least 48 meld points, a
pure sequence among the melds, and structural validity of every meld — and the
§8 declaration totalling 27 points is rejected. -/
theorem claim_C6_declaration_gate :
    (∀ (hand : List Card) (melds : List Meld),
      Validator.validate_initial_declaration hand melds = true ↔
        (Validator.cards_available_in_hand hand melds = true ∧
         Validator.MINIMUM_DECLARATION_POINTS ≤ Validator.calculate_meld_points melds ∧
         Validator.has_pure_sequence melds = true ∧
         melds.all Validator.validate_meld = true)) ∧
    Validator.validate_initial_declaration
      [⟨"Hearts", "2", false⟩, ⟨"Hearts", "3", false⟩, ⟨"Hearts", "4", false⟩,
       ⟨"Spades", "6", false⟩, ⟨"Clubs", "6", false⟩, ⟨"Diamonds", "6", false⟩]
      [⟨[⟨"Hearts", "2", false⟩, ⟨"Hearts", "3", false⟩, ⟨"Hearts", "4", false⟩], "sequence"⟩,
       ⟨[⟨"Spades", "6", false⟩, ⟨"Clubs", "6", false⟩, ⟨"Diamonds", "6", false⟩], "set"⟩]
      = false := by
  constructor
  · intro hand melds
    by_cases hA : Validator.cards_available_in_hand hand melds <;>
      by_cases hB : Validator.calculate_meld_points melds
          < Validator.MINIMUM_DECLARATION_POINTS <;>
        by_cases hC : Validator.has_pure_sequence melds <;>
          simp [Validator.validate_initial_declaration, hA, hB, hC] <;> omega
  · decide

/-- Witness for C6: the §8 declaration with 60 points and a pure sequence is
accepted because all four checks hold. -/
theorem claim_C6_declaration_gate_witness :
    Validator.validate_initial_declaration declHand declMelds = true :=
  (claim_C6_declaration_gate.1 declHand declMelds).mpr
    (by
      refine ⟨by decide, by decide, ?_, ?_⟩ <;>
        simp [declMelds, Validator.has_pure_sequence, Validator.is_pure_sequence,
          Validator.validate_meld, Validator.is_valid_sequence, Validator.is_valid_set,
          Validator.can_form_sequence_with_jokers, Validator.get_rank_values,
          Validator.rank_to_value, Validator.buildUnique, Validator.gapsNeeded,
          Validator.setLoop] <;> decide)

/-- C7, counterexample to the claim as stated: after a single draw from a
fresh deck the two pile sizes sum to 107, not 108 (the drawn card sits with
the caller until discarded back). -/
theorem claim_C7_counterexample :
    ¬ ((applyOps freshDeck [DeckOp.draw]).cards_remaining
        + (applyOps freshDeck [DeckOp.draw]).discard_pile_size = 108) := by
  decide

/-- C7 (amended): a fresh deck has 108 cards in the draw pile — 4 jokers and
2 copies of each of the 52 rank-suit pairs — with an empty discard pile, and
after any sequence of draw/discard operations the pile sizes satisfy
`cards_remaining + discard_pile_size + successful draws = 108 + discards`. -/
theorem claim_C7_deck_conservation :
    freshDeck.cards_remaining = 108 ∧
    freshDeck.discard_pile_size = 0 ∧
    (buildDeck.filter Card.is_joker).length = 4 ∧
    ((SUITS.all fun s => RANKS.all fun r =>
      (buildDeck.filter (fun c => c = ⟨s, r, false⟩)).length = 2) = true) ∧
    ∀ ops : List DeckOp,
      (applyOps freshDeck ops).cards_remaining
        + (applyOps freshDeck ops).discard_pile_size
        + successfulDraws freshDeck ops
      = 108 + numDiscards ops := by
  refine ⟨by decide, rfl, by decide, by decide, ?_⟩
  intro ops
  have h := deck_conservation ops freshDeck
  have h108 : freshDeck.cards_remaining = 108 := by decide
  have h0 : freshDeck.discard_pile_size = 0 := rfl
  omega

/-- C8: with at least one player and a valid current index, N calls of
`next_turn` return the index to its start and advance the round by exactly
one; with no players `next_turn` is the identity. -/
theorem claim_C8_round_robin :
    (∀ gs : GameState, 1 ≤ gs.players.length →
      gs.current_player_index < gs.players.length →
      GameState.next_turn^[gs.players.length] gs =
        { gs with current_round := gs.current_round + 1 }) ∧
    (∀ gs : GameState, gs.players = [] → gs.next_turn = gs) := by
  constructor
  · intro gs hN hidx
    have hsplit : gs.players.length =
        gs.current_player_index + ((gs.players.length - gs.current_player_index - 1) + 1) := by
      omega
    rw [hsplit, Function.iterate_add_apply]
    rw [next_turn_wrap _ gs (by omega)]
    rw [next_turn_run _ _ (by simp; omega)]
    simp
  · intro gs h
    simp [GameState.next_turn, h]

/-- Witness for C8: a two-player game returns to player 0 on round 2 after two
turns. -/
theorem claim_C8_round_robin_witness :
    1 ≤ gsTwoPlayers.players.length ∧
    gsTwoPlayers.current_player_index < gsTwoPlayers.players.length ∧
    GameState.next_turn^[gsTwoPlayers.players.length] gsTwoPlayers =
      { gsTwoPlayers with current_round := gsTwoPlayers.current_round + 1 } :=
  ⟨by decide, by decide, claim_C8_round_robin.1 gsTwoPlayers (by decide) (by decide)⟩

/-- C9: deserializing the serialized snapshot restores the player count,
names, hands and declaration flags, both piles, the table melds, the round and
the current index — while every restored player score is 0 and the scores
mapping is empty (not carried by the round trip). -/
theorem claim_C9_snapshot_roundtrip (gs : GameState) :
    (GameState.from_dict (GameState.to_dict gs)).players.length = gs.players.length ∧
    (GameState.from_dict (GameState.to_dict gs)).players.map Player.name
      = gs.players.map Player.name ∧
    (GameState.from_dict (GameState.to_dict gs)).players.map Player.hand
      = gs.players.map Player.hand ∧
    (GameState.from_dict (GameState.to_dict gs)).players.map Player.has_declared
      = gs.players.map Player.has_declared ∧
    (GameState.from_dict (GameState.to_dict gs)).draw_pile = gs.draw_pile ∧
    (GameState.from_dict (GameState.to_dict gs)).discard_pile = gs.discard_pile ∧
    (GameState.from_dict (GameState.to_dict gs)).melds_on_table = gs.melds_on_table ∧
    (GameState.from_dict (GameState.to_dict gs)).current_round = gs.current_round ∧
    (GameState.from_dict (GameState.to_dict gs)).current_player_index
      = gs.current_player_index ∧
    (∀ p ∈ (GameState.from_dict (GameState.to_dict gs)).players, p.score = 0) ∧
    (GameState.from_dict (GameState.to_dict gs)).scores = [] := by
  simp [GameState.from_dict, GameState.to_dict, List.map_map, Function.comp_def,
    card_roundtrip_comp, card_roundtrip, meld_roundtrip, player_roundtrip]

/-- Witness for C9 at a concrete snapshot: player count survives and the
scores dict comes back empty. -/
theorem claim_C9_snapshot_roundtrip_witness :
    (GameState.from_dict (GameState.to_dict gsSnapshot)).players.length
      = gsSnapshot.players.length ∧
    (GameState.from_dict (GameState.to_dict gsSnapshot)).scores = [] :=
  ⟨(claim_C9_snapshot_roundtrip gsSnapshot).1,
   (claim_C9_snapshot_roundtrip gsSnapshot).2.2.2.2.2.2.2.2.2.2⟩

/-- C10: a candidate made only of jokers is never a valid sequence at the
public `validate_new_meld` interface, but is a valid set exactly when it holds
3 or 4 jokers. -/
theorem claim_C10_all_joker_melds (cards : List Card)
    (h : ∀ c ∈ cards, c.is_joker = true) :
    Validator.validate_new_meld cards "sequence" = false ∧
    (Validator.validate_new_meld cards "set" = true ↔
      cards.length = 3 ∨ cards.length = 4) := by
  have hfilter : cards.filter (fun c => !c.is_joker) = [] := by
    simp [List.filter_eq_nil_iff]
    intro c hc
    simp [h c hc]
  constructor
  · simp [Validator.validate_new_meld, Validator.validate_meld, Validator.is_valid_sequence,
      hfilter]
  · simp [Validator.validate_new_meld, Validator.validate_meld, Validator.is_valid_set,
      setLoop_all_jokers cards h 0]
    constructor
    · intro hle
      omega
    · intro hlen
      omega

/-- Witness for C10: three jokers form a valid set and never a valid
sequence. -/
theorem claim_C10_all_joker_melds_witness :
    Validator.validate_new_meld [jokerCard, jokerCard, jokerCard] "sequence" = false ∧
    Validator.validate_new_meld [jokerCard, jokerCard, jokerCard] "set" = true :=
  ⟨(claim_C10_all_joker_melds [jokerCard, jokerCard, jokerCard] (by decide)).1,
   (claim_C10_all_joker_melds [jokerCard, jokerCard, jokerCard] (by decide)).2.mpr
     (Or.inl rfl)⟩

end Rummy
